import Mathlib

/-!
Shallow embedding of the Minkowski collision demo (src/script.js): a 2D
vector type, ray-cast primitives, three shape variants (Circle, AABB,
RoundRect) with containment / closest-point / ray-cast / Minkowski-sum
operations, and the collision solver built on them.

Numbers are embedded as real numbers; the JS value Number.POSITIVE_INFINITY
returned by the ray casts is modelled as the top element of WithTop ℝ, and a
JS throw as the error case of Except String.  The guards in the source keep
every division reachable by the claims away from a zero denominator.
-/

namespace Minkowski

noncomputable section

open scoped Classical

/-- Number.EPSILON of JavaScript. -/
def jsEpsilon : ℝ := 1 / 2 ^ 52

structure Vector where
  x : ℝ
  y : ℝ

namespace Vector

protected def add (a b : Vector) : Vector := ⟨a.x + b.x, a.y + b.y⟩

protected def sub (a b : Vector) : Vector := ⟨a.x - b.x, a.y - b.y⟩

protected def mul (v : Vector) (scalar : ℝ) : Vector := ⟨v.x * scalar, v.y * scalar⟩

protected def dot (a b : Vector) : ℝ := a.x * b.x + a.y * b.y

protected def cross (a b : Vector) : ℝ := a.x * b.y - a.y * b.x

protected def min (a b : Vector) : Vector := ⟨Min.min a.x b.x, Min.min a.y b.y⟩

protected def max (a b : Vector) : Vector := ⟨Max.max a.x b.x, Max.max a.y b.y⟩

protected def abs (v : Vector) : Vector := ⟨|v.x|, |v.y|⟩

def length (v : Vector) : ℝ := Real.sqrt (Vector.dot v v)

def normalized (v : Vector) : Vector := Vector.mul v (1 / v.length)

def tangent (v : Vector) : Vector := ⟨-v.y, v.x⟩

protected def zero : Vector := ⟨0, 0⟩

end Vector

/-- Function rayCastEdge of src/script.js (the spec calls it rayCastSegment). -/
def rayCastEdge (originA endA originB endB : Vector) : WithTop ℝ :=
  let r := Vector.sub endA originA
  let s := Vector.sub endB originB
  let det := Vector.cross r s
  if det = 0 then ⊤
  else
    let dir := Vector.sub originB originA
    let t1 := Vector.cross dir s / det
    if 0 > t1 ∨ t1 > 1 then ⊤
    else
      let t2 := Vector.cross dir r / det
      if 0 > t2 ∨ t2 > 1 then ⊤
      else (t1 : WithTop ℝ)

/-- Function rayCastCircle of src/script.js. -/
def rayCastCircle (origin direction center : Vector) (radius : ℝ) : WithTop ℝ :=
  let a := Vector.dot direction direction
  let centerToOrigin := Vector.sub origin center
  let b := 2 * Vector.dot direction centerToOrigin
  let c := Vector.dot centerToOrigin centerToOrigin - radius * radius
  let det := b * b - 4 * a * c
  if a ≤ jsEpsilon ∨ det < 0 then ⊤
  else if det = 0 then
    let t := -b / (2 * a)
    if t ≥ 0 ∧ t ≤ 1 then (t : WithTop ℝ) else ⊤
  else
    let t1 := (-b + Real.sqrt det) / (2 * a)
    let t2 := (-b - Real.sqrt det) / (2 * a)
    if t1 ≥ 0 ∧ t1 ≤ 1 then
      if t2 ≥ 0 ∧ t2 ≤ 1 then (Min.min t1 t2 : ℝ)
      else (t1 : WithTop ℝ)
    else if t2 ≥ 0 ∧ t2 ≤ 1 then (t2 : WithTop ℝ)
    else ⊤

/-- Closed set of shape variants: Circle, AABB and RoundRect of src/script.js,
with the geometric fields of each class (the shared center and velocity live
in Shape). -/
inductive Geom where
  | circle (radius : ℝ)
  | aabb (hw hh : ℝ)
  | roundrect (hw hh radius : ℝ)

/-- JavaScript constructor.name of the class a Geom stands for. -/
def Geom.name : Geom → String
  | .circle _ => "Circle"
  | .aabb _ _ => "AABB"
  | .roundrect _ _ _ => "RoundRect"

/-- Radius field of the variants that have one (Circle and RoundRect). -/
def Geom.radiusField : Geom → Option ℝ
  | .circle radius => some radius
  | .aabb _ _ => none
  | .roundrect _ _ radius => some radius

/-- Shape of src/script.js: the common center and velocity plus the variant. -/
structure Shape where
  center : Vector
  velocity : Vector
  geom : Geom

/-- Circle.contains of src/script.js. -/
def containsCircle (center : Vector) (radius : ℝ) (p : Vector) : Bool :=
  (Vector.sub p center).length < radius

/-- AABB.contains of src/script.js; left, right, top, bottom written out from
the getters. -/
def containsAABB (center : Vector) (hw hh : ℝ) (p : Vector) : Bool :=
  center.x - hw ≤ p.x ∧ center.x + hw ≥ p.x ∧ center.y - hh ≤ p.y ∧ center.y + hh ≥ p.y

/-- RoundRect.contains of src/script.js. -/
def containsRoundRect (center : Vector) (hw hh radius : ℝ) (p : Vector) : Bool :=
  let q := Vector.add (Vector.abs (Vector.sub p center)) ⟨-hw + radius, -hh + radius⟩
  let t := Min.min (Max.max q.x q.y) 0 + (Vector.max q Vector.zero).length - radius
  t ≤ 0

/-- Circle.closestPoint of src/script.js. -/
def closestPointCircle (center : Vector) (radius : ℝ) (p : Vector) : Vector :=
  let v := Vector.sub p center
  Vector.add center (Vector.mul v (radius / v.length))

/-- AABB.closestPoint of src/script.js: scans the four sides in the order
left, right, bottom, top, keeping the side line whose distance is strictly
smaller than the current minimum, and projects p onto that line. -/
def closestPointAABB (center : Vector) (hw hh : ℝ) (p : Vector) : Vector :=
  let left := center.x - hw
  let right := center.x + hw
  let top := center.y - hh
  let bottom := center.y + hh
  let minDist := |p.x - left|
  let x := left
  let y := p.y
  let s1 := if |right - p.x| < minDist then (|right - p.x|, right, y) else (minDist, x, y)
  let s2 := if |bottom - p.y| < s1.1 then (|bottom - p.y|, p.x, bottom) else s1
  let s3 := if |top - p.y| < s2.1 then (|top - p.y|, p.x, top) else s2
  ⟨s3.2.1, s3.2.2⟩

/-- RoundRect.closestPoint of src/script.js, including the source's use of hh
against q.x and hw against q.y in the rectangle-region distance bookkeeping,
and the initial minDist of Number.POSITIVE_INFINITY. -/
def closestPointRoundRect (center : Vector) (hw hh radius : ℝ) (p : Vector) : Vector :=
  let left := center.x - hw
  let right := center.x + hw
  let top := center.y - hh
  let bottom := center.y + hh
  let v := Vector.sub p center
  let q := Vector.abs v
  let minDist : WithTop ℝ := ⊤
  let c := p
  let r : Vector := ⟨hw - radius, hh - radius⟩
  if q.x > r.x ∧ q.y > r.y then
    let w := Vector.sub q r
    let w := Vector.add r (Vector.mul w (radius / w.length))
    ⟨center.x + (if v.x > 0 then w.x else -w.x),
     center.y + (if v.y > 0 then w.y else -w.y)⟩
  else
    let s1 :=
      if q.x ≤ r.x then (((|q.x - hh| : ℝ) : WithTop ℝ), (⟨p.x, if v.y > 0 then bottom else top⟩ : Vector))
      else (minDist, c)
    let s2 :=
      if q.y < r.y ∧ ((|q.y - hw| : ℝ) : WithTop ℝ) < s1.1 then (⟨if v.x > 0 then right else left, p.y⟩ : Vector)
      else s1.2
    s2

/-- AABB.rayCast of src/script.js: minimum over the four edges, folded with
the source's strict-comparison updates. -/
def rayCastAABB (center : Vector) (hw hh : ℝ) (origin direction : Vector) : WithTop ℝ :=
  let left := center.x - hw
  let right := center.x + hw
  let top := center.y - hh
  let bottom := center.y + hh
  let leftTop : Vector := ⟨left, top⟩
  let leftBottom : Vector := ⟨left, bottom⟩
  let rightTop : Vector := ⟨right, top⟩
  let rightBottom : Vector := ⟨right, bottom⟩
  let e := Vector.add origin direction
  let minT := rayCastEdge origin e leftTop leftBottom
  let t := rayCastEdge origin e leftBottom rightBottom
  let minT := if t < minT then t else minT
  let t := rayCastEdge origin e rightBottom rightTop
  let minT := if t < minT then t else minT
  let t := rayCastEdge origin e rightTop leftTop
  let minT := if t < minT then t else minT
  minT

/-- RoundRect.rayCast of src/script.js: four inset straight edges and four
corner arcs, folded with the source's strict-comparison updates. -/
def rayCastRoundRect (center : Vector) (hw hh radius : ℝ) (origin direction : Vector) : WithTop ℝ :=
  let left := center.x - hw
  let right := center.x + hw
  let top := center.y - hh
  let bottom := center.y + hh
  let e := Vector.add origin direction
  let minT := rayCastEdge origin e ⟨left, top + radius⟩ ⟨left, bottom - radius⟩
  let t := rayCastEdge origin e ⟨left + radius, bottom⟩ ⟨right - radius, bottom⟩
  let minT := if t < minT then t else minT
  let t := rayCastEdge origin e ⟨right, top + radius⟩ ⟨right, bottom - radius⟩
  let minT := if t < minT then t else minT
  let t := rayCastEdge origin e ⟨left + radius, top⟩ ⟨right - radius, top⟩
  let minT := if t < minT then t else minT
  let t := rayCastCircle origin direction ⟨left + radius, top + radius⟩ radius
  let minT := if t < minT then t else minT
  let t := rayCastCircle origin direction ⟨right - radius, top + radius⟩ radius
  let minT := if t < minT then t else minT
  let t := rayCastCircle origin direction ⟨right - radius, bottom - radius⟩ radius
  let minT := if t < minT then t else minT
  let t := rayCastCircle origin direction ⟨left + radius, bottom - radius⟩ radius
  let minT := if t < minT then t else minT
  minT

/-- Dynamic dispatch of contains over the shape variants. -/
def Shape.contains (s : Shape) (p : Vector) : Bool :=
  match s.geom with
  | .circle radius => containsCircle s.center radius p
  | .aabb hw hh => containsAABB s.center hw hh p
  | .roundrect hw hh radius => containsRoundRect s.center hw hh radius p

/-- Dynamic dispatch of closestPoint over the shape variants. -/
def Shape.closestPoint (s : Shape) (p : Vector) : Vector :=
  match s.geom with
  | .circle radius => closestPointCircle s.center radius p
  | .aabb hw hh => closestPointAABB s.center hw hh p
  | .roundrect hw hh radius => closestPointRoundRect s.center hw hh radius p

/-- Dynamic dispatch of rayCast over the shape variants. -/
def Shape.rayCast (s : Shape) (origin direction : Vector) : WithTop ℝ :=
  match s.geom with
  | .circle radius => rayCastCircle origin direction s.center radius
  | .aabb hw hh => rayCastAABB s.center hw hh origin direction
  | .roundrect hw hh radius => rayCastRoundRect s.center hw hh radius origin direction

/-- Minkowski sum of src/script.js: the pairwise dispatch of Circle.sum,
RoundRect.sum and AABB.sum.  Every constructed shape gets velocity zero (the
Shape constructor sets it) and center this.center - other.center.  The one
pair with no formula, RoundRect with RoundRect, throws the template string of
the source. -/
def Shape.sum (a b : Shape) : Except String Shape :=
  match a.geom, b.geom with
  | .circle r1, .circle r2 =>
    .ok ⟨Vector.sub a.center b.center, Vector.zero, .circle (r1 + r2)⟩
  | .circle r1, .aabb hw hh =>
    .ok ⟨Vector.sub a.center b.center, Vector.zero, .roundrect (r1 + hw) (r1 + hh) r1⟩
  | .circle r1, .roundrect hw hh r2 =>
    .ok ⟨Vector.sub a.center b.center, Vector.zero, .roundrect (r1 + hw) (r1 + hh) (r1 + r2)⟩
  | .roundrect hw hh r1, .aabb hw2 hh2 =>
    .ok ⟨Vector.sub a.center b.center, Vector.zero, .roundrect (hw + hw2) (hh + hh2) r1⟩
  | .roundrect hw hh r1, .circle r2 =>
    .ok ⟨Vector.sub a.center b.center, Vector.zero, .roundrect (hw + r2) (hh + r2) (r1 + r2)⟩
  | .roundrect _ _ _, .roundrect _ _ _ =>
    .error ("sum is not implemented for " ++ Geom.name a.geom ++ " and " ++ Geom.name b.geom)
  | .aabb hw hh, .aabb hw2 hh2 =>
    .ok ⟨Vector.sub a.center b.center, Vector.zero, .aabb (hw + hw2) (hh + hh2)⟩
  | .aabb hw hh, .circle r2 =>
    .ok ⟨Vector.sub a.center b.center, Vector.zero, .roundrect (r2 + hw) (r2 + hh) r2⟩
  | .aabb hw hh, .roundrect hw2 hh2 r2 =>
    .ok ⟨Vector.sub a.center b.center, Vector.zero, .roundrect (hw + hw2) (hh + hh2) r2⟩

/-- Shape.intersects of src/script.js: origin containment in the sum; a throw
of sum propagates. -/
def Shape.intersects (a b : Shape) : Except String Bool :=
  (a.sum b).map fun s => s.contains Vector.zero

/-- Shape.intersect of src/script.js: the closest point to the origin on the
sum when it contains the origin, null otherwise; a throw of sum propagates. -/
def Shape.intersect (a b : Shape) : Except String (Option Vector) :=
  (a.sum b).map fun s =>
    if s.contains Vector.zero then some (s.closestPoint Vector.zero) else none

/-- Shape.solveCollisions of src/script.js (the complete first variant): the
mutation of this.center/velocity and other.center/velocity is returned as the
pair (new this, new other).  In the penetration branch only this.center moves;
in the swept branch a finite hit advances both centers by velocity * (dt * h)
and leaves both velocities as they were (the tangential reflection in the
source is commented out); no hit advances both centers by velocity * dt. -/
def Shape.solveCollisions (a b : Shape) (dt : ℝ) : Except String (Shape × Shape) :=
  (b.sum a).map fun s =>
    if s.contains Vector.zero then
      ({ a with center := Vector.add a.center (s.closestPoint Vector.zero) }, b)
    else
      let relativeMotion := Vector.sub a.velocity b.velocity
      let h := s.rayCast Vector.zero relativeMotion
      if h < ⊤ then
        ({ a with center := Vector.add a.center (Vector.mul a.velocity (dt * h.untop' 0)) },
         { b with center := Vector.add b.center (Vector.mul b.velocity (dt * h.untop' 0)) })
      else
        ({ a with center := Vector.add a.center (Vector.mul a.velocity dt) },
         { b with center := Vector.add b.center (Vector.mul b.velocity dt) })

/-- Claim C3's reading of rayCastSegment, written from the spec's words: det
from the two segment directions; with dir = originB - originA both parameters
t1 = cross(dir, s)/det and t2 = cross(dir, r)/det are computed, and the result
is t1 when both lie in [0,1] and +infinity otherwise. -/
def rayCastEdgeSpec (originA endA originB endB : Vector) : WithTop ℝ :=
  let det := Vector.cross (Vector.sub endA originA) (Vector.sub endB originB)
  if det = 0 then ⊤
  else
    let dir := Vector.sub originB originA
    let t1 := Vector.cross dir (Vector.sub endB originB) / det
    let t2 := Vector.cross dir (Vector.sub endA originA) / det
    if 0 ≤ t1 ∧ t1 ≤ 1 ∧ 0 ≤ t2 ∧ t2 ≤ 1 then (t1 : WithTop ℝ) else ⊤

/-- Claim C4's reading of rayCastCircle, written from the spec's words:
+infinity for a degenerate direction or a negative discriminant; the single
root, range permitting, when the discriminant vanishes; with two roots the
smaller root in [0,1] when both are in range, the one in-range root when only
one is, +infinity when none is. -/
def rayCastCircleSpec (origin direction center : Vector) (radius : ℝ) : WithTop ℝ :=
  let a := Vector.dot direction direction
  let b := 2 * Vector.dot direction (Vector.sub origin center)
  let c := Vector.dot (Vector.sub origin center) (Vector.sub origin center) - radius * radius
  let det := b * b - 4 * a * c
  if a ≤ jsEpsilon ∨ det < 0 then ⊤
  else if det = 0 then
    let t := -b / (2 * a)
    if t ≥ 0 ∧ t ≤ 1 then (t : WithTop ℝ) else ⊤
  else
    let t1 := (-b + Real.sqrt det) / (2 * a)
    let t2 := (-b - Real.sqrt det) / (2 * a)
    if (t1 ≥ 0 ∧ t1 ≤ 1) ∧ (t2 ≥ 0 ∧ t2 ≤ 1) then (Min.min t1 t2 : ℝ)
    else if t1 ≥ 0 ∧ t1 ≤ 1 then (t1 : WithTop ℝ)
    else if t2 ≥ 0 ∧ t2 ≤ 1 then (t2 : WithTop ℝ)
    else ⊤

end

section Theorems

/-- Definitional helper: Real.sqrt at a perfect square. -/
theorem sqrt_eq_of_sq (a b : ℝ) (hb : 0 ≤ b) (h : b ^ 2 = a) : Real.sqrt a = b := by
  rw [← h]
  exact Real.sqrt_sq hb

/-- C3: rayCastSegment returns +infinity for det = 0, and otherwise returns
t1 = cross(dir, s)/det exactly when both t1 and t2 = cross(dir, r)/det lie in
[0,1], +infinity otherwise. -/
theorem rayCastEdge_matches_claim (originA endA originB endB : Vector) :
    rayCastEdge originA endA originB endB = rayCastEdgeSpec originA endA originB endB := by
  unfold rayCastEdge rayCastEdgeSpec
  dsimp only
  set det := Vector.cross (Vector.sub endA originA) (Vector.sub endB originB) with hdet
  set t1 := Vector.cross (Vector.sub originB originA) (Vector.sub endB originB) / det with ht1
  set t2 := Vector.cross (Vector.sub originB originA) (Vector.sub endA originA) / det with ht2
  by_cases h0 : det = 0
  · rw [if_pos h0, if_pos h0]
  · rw [if_neg h0, if_neg h0]
    by_cases hA : 0 > t1 ∨ t1 > 1
    · rw [if_pos hA, if_neg ?_]
      rintro ⟨c1, c2, c3, c4⟩
      rcases hA with h | h <;> linarith
    · rw [if_neg hA]
      push_neg at hA
      by_cases hB : 0 > t2 ∨ t2 > 1
      · rw [if_pos hB, if_neg ?_]
        rintro ⟨c1, c2, c3, c4⟩
        rcases hB with h | h <;> linarith
      · rw [if_neg hB]
        push_neg at hB
        rw [if_pos ⟨hA.1, hA.2, hB.1, hB.2⟩]

/-- C4: rayCastCircle returns +infinity for a degenerate direction or a
negative discriminant, the single in-range root for a vanishing discriminant,
and with two roots the smaller in-range root when both are in [0,1], the one
in-range root when only one is, +infinity otherwise. -/
theorem rayCastCircle_matches_claim (origin direction center : Vector) (radius : ℝ) :
    rayCastCircle origin direction center radius =
      rayCastCircleSpec origin direction center radius := by
  unfold rayCastCircle rayCastCircleSpec
  dsimp only
  set a := Vector.dot direction direction with ha
  set b := 2 * Vector.dot direction (Vector.sub origin center) with hb
  set c := Vector.dot (Vector.sub origin center) (Vector.sub origin center) - radius * radius
    with hc
  set det := b * b - 4 * a * c with hdet
  by_cases h0 : a ≤ jsEpsilon ∨ det < 0
  · rw [if_pos h0, if_pos h0]
  · rw [if_neg h0, if_neg h0]
    by_cases h1 : det = 0
    · rw [if_pos h1, if_pos h1]
    · rw [if_neg h1, if_neg h1]
      set t1 := (-b + Real.sqrt det) / (2 * a) with ht1
      set t2 := (-b - Real.sqrt det) / (2 * a) with ht2
      by_cases hc1 : t1 ≥ 0 ∧ t1 ≤ 1
      · by_cases hc2 : t2 ≥ 0 ∧ t2 ≤ 1
        · rw [if_pos hc1, if_pos hc2, if_pos ⟨hc1, hc2⟩]
        · rw [if_pos hc1, if_neg hc2, if_neg (fun h => hc2 h.2), if_pos hc1]
      · rw [if_neg hc1,
          if_neg (show ¬((t1 ≥ 0 ∧ t1 ≤ 1) ∧ t2 ≥ 0 ∧ t2 ≤ 1) from fun h => hc1 h.1),
          if_neg hc1]

/-- C5: every successful Minkowski sum has center A.center - B.center. -/
theorem sum_center_eq_sub (a b s : Shape) (h : a.sum b = .ok s) :
    s.center = Vector.sub a.center b.center := by
  obtain ⟨ca, va, ga⟩ := a
  obtain ⟨cb, vb, gb⟩ := b
  cases ga <;> cases gb <;>
    simp only [Shape.sum, Except.ok.injEq, reduceCtorEq] at h <;> subst h <;> rfl

/-- Witness for C5 at a concrete circle/circle pair. -/
theorem sum_center_eq_sub_witness :
    (Shape.mk ⟨1 - 4, 2 - 5⟩ ⟨0, 0⟩ (.circle (3 + 6))).center = Vector.sub ⟨1, 2⟩ ⟨4, 5⟩ :=
  sum_center_eq_sub ⟨⟨1, 2⟩, ⟨0, 0⟩, .circle 3⟩ ⟨⟨4, 5⟩, ⟨0, 0⟩, .circle 6⟩ _ rfl

/-- C8: RoundRect with RoundRect, the one variant pair with no Minkowski-sum
formula, makes sum throw the unimplemented-combination message naming both
variant kinds, and the calling queries intersects, intersect and the solver
propagate that same throw with no fallback. -/
theorem sum_roundrect_pair_throws (a b : Shape)
    (ha : ∃ hw hh r, a.geom = .roundrect hw hh r)
    (hb : ∃ hw hh r, b.geom = .roundrect hw hh r) :
    a.geom.name = "RoundRect" ∧ b.geom.name = "RoundRect" ∧
    a.sum b = .error ("sum is not implemented for " ++ a.geom.name ++ " and " ++ b.geom.name) ∧
    a.intersects b = .error ("sum is not implemented for " ++ a.geom.name ++ " and " ++ b.geom.name) ∧
    a.intersect b = .error ("sum is not implemented for " ++ a.geom.name ++ " and " ++ b.geom.name) ∧
    (∀ dt, a.solveCollisions b dt =
      .error ("sum is not implemented for " ++ b.geom.name ++ " and " ++ a.geom.name)) ∧
    ∀ c d : Shape, (∃ e, c.sum d = .error e) →
      (∃ hw hh r, c.geom = .roundrect hw hh r) ∧ ∃ hw hh r, d.geom = .roundrect hw hh r := by
  obtain ⟨hw1, hh1, r1, ha⟩ := ha
  obtain ⟨hw2, hh2, r2, hb⟩ := hb
  obtain ⟨ca, va, ga⟩ := a
  obtain ⟨cb, vb, gb⟩ := b
  dsimp only at ha hb
  subst ha
  subst hb
  refine ⟨rfl, rfl, rfl, rfl, rfl, fun dt => rfl, ?_⟩
  rintro c d ⟨e, he⟩
  obtain ⟨cc, vc, gc⟩ := c
  obtain ⟨cd, vd, gd⟩ := d
  cases gc <;> cases gd <;> simp only [Shape.sum, reduceCtorEq] at he
  exact ⟨⟨_, _, _, rfl⟩, ⟨_, _, _, rfl⟩⟩

/-- Witness for C8 at two concrete rounded rectangles. -/
theorem sum_roundrect_pair_throws_witness :
    (Shape.mk ⟨0, 0⟩ ⟨0, 0⟩ (.roundrect 1 1 1)).geom.name = "RoundRect" ∧
    (Shape.mk ⟨5, 0⟩ ⟨0, 0⟩ (.roundrect 2 2 1)).geom.name = "RoundRect" ∧
    Shape.sum ⟨⟨0, 0⟩, ⟨0, 0⟩, .roundrect 1 1 1⟩ ⟨⟨5, 0⟩, ⟨0, 0⟩, .roundrect 2 2 1⟩ =
      .error ("sum is not implemented for " ++ (Geom.roundrect 1 1 1).name ++ " and " ++ (Geom.roundrect 2 2 1).name) ∧
    Shape.intersects ⟨⟨0, 0⟩, ⟨0, 0⟩, .roundrect 1 1 1⟩ ⟨⟨5, 0⟩, ⟨0, 0⟩, .roundrect 2 2 1⟩ =
      .error ("sum is not implemented for " ++ (Geom.roundrect 1 1 1).name ++ " and " ++ (Geom.roundrect 2 2 1).name) ∧
    Shape.intersect ⟨⟨0, 0⟩, ⟨0, 0⟩, .roundrect 1 1 1⟩ ⟨⟨5, 0⟩, ⟨0, 0⟩, .roundrect 2 2 1⟩ =
      .error ("sum is not implemented for " ++ (Geom.roundrect 1 1 1).name ++ " and " ++ (Geom.roundrect 2 2 1).name) ∧
    (∀ dt, Shape.solveCollisions ⟨⟨0, 0⟩, ⟨0, 0⟩, .roundrect 1 1 1⟩ ⟨⟨5, 0⟩, ⟨0, 0⟩, .roundrect 2 2 1⟩ dt =
      .error ("sum is not implemented for " ++ (Geom.roundrect 2 2 1).name ++ " and " ++ (Geom.roundrect 1 1 1).name)) ∧
    (∀ c d : Shape, (∃ e, c.sum d = .error e) →
      (∃ hw hh r, c.geom = .roundrect hw hh r) ∧ ∃ hw hh r, d.geom = .roundrect hw hh r) :=
  sum_roundrect_pair_throws ⟨⟨0, 0⟩, ⟨0, 0⟩, .roundrect 1 1 1⟩ ⟨⟨5, 0⟩, ⟨0, 0⟩, .roundrect 2 2 1⟩
    ⟨1, 1, 1, rfl⟩ ⟨2, 2, 1, rfl⟩

/-- C9: for circle/circle and box/roundedRect pairs both orders of sum succeed
and the two composite shapes carry equal radius fields. -/
theorem sum_radius_symm (a b : Shape)
    (h : (∃ r1 r2, a.geom = .circle r1 ∧ b.geom = .circle r2) ∨
         (∃ hw hh hw2 hh2 r, a.geom = .aabb hw hh ∧ b.geom = .roundrect hw2 hh2 r) ∨
         (∃ hw hh r hw2 hh2, a.geom = .roundrect hw hh r ∧ b.geom = .aabb hw2 hh2)) :
    ∃ s t, a.sum b = .ok s ∧ b.sum a = .ok t ∧ s.geom.radiusField = t.geom.radiusField := by
  obtain ⟨ca, va, ga⟩ := a
  obtain ⟨cb, vb, gb⟩ := b
  rcases h with ⟨r1, r2, h1, h2⟩ | ⟨hw, hh, hw2, hh2, r, h1, h2⟩ |
      ⟨hw, hh, r, hw2, hh2, h1, h2⟩ <;>
    (dsimp only at h1 h2; subst h1; subst h2) <;>
    refine ⟨_, _, rfl, rfl, ?_⟩ <;> simp [Geom.radiusField, add_comm]

/-- Witness for C9 at a concrete circle/circle pair. -/
theorem sum_radius_symm_witness :
    ∃ s t, Shape.sum ⟨⟨0, 0⟩, ⟨0, 0⟩, .circle 1⟩ ⟨⟨3, 0⟩, ⟨0, 0⟩, .circle 2⟩ = .ok s ∧
      Shape.sum ⟨⟨3, 0⟩, ⟨0, 0⟩, .circle 2⟩ ⟨⟨0, 0⟩, ⟨0, 0⟩, .circle 1⟩ = .ok t ∧
      s.geom.radiusField = t.geom.radiusField :=
  sum_radius_symm ⟨⟨0, 0⟩, ⟨0, 0⟩, .circle 1⟩ ⟨⟨3, 0⟩, ⟨0, 0⟩, .circle 2⟩ (.inl ⟨1, 2, rfl, rfl⟩)

/-- C10: when the variant pair supports sum, intersect returns a non-null
vector exactly when intersects returns true, and the vector it returns is the
closest point to the origin on the composite shape. -/
theorem intersect_matches_intersects (a b s : Shape) (h : a.sum b = .ok s) :
    ((∃ v, a.intersect b = .ok (some v)) ↔ a.intersects b = .ok true) ∧
    ∀ v, a.intersect b = .ok (some v) → v = s.closestPoint Vector.zero := by
  unfold Shape.intersect Shape.intersects
  rw [h]
  by_cases hc : s.contains Vector.zero
  · simp [Except.map, hc]
  · simp [Except.map, hc]

/-- Witness for C10 at two concrete overlapping circles. -/
theorem intersect_matches_intersects_witness :
    ((∃ v, Shape.intersect ⟨⟨0, 0⟩, ⟨0, 0⟩, .circle 1⟩ ⟨⟨1, 0⟩, ⟨0, 0⟩, .circle 1⟩ = .ok (some v)) ↔
      Shape.intersects ⟨⟨0, 0⟩, ⟨0, 0⟩, .circle 1⟩ ⟨⟨1, 0⟩, ⟨0, 0⟩, .circle 1⟩ = .ok true) ∧
    ∀ v, Shape.intersect ⟨⟨0, 0⟩, ⟨0, 0⟩, .circle 1⟩ ⟨⟨1, 0⟩, ⟨0, 0⟩, .circle 1⟩ = .ok (some v) →
      v = Shape.closestPoint ⟨⟨0 - 1, 0 - 0⟩, ⟨0, 0⟩, .circle (1 + 1)⟩ Vector.zero :=
  intersect_matches_intersects ⟨⟨0, 0⟩, ⟨0, 0⟩, .circle 1⟩ ⟨⟨1, 0⟩, ⟨0, 0⟩, .circle 1⟩
    ⟨⟨0 - 1, 0 - 0⟩, ⟨0, 0⟩, .circle (1 + 1)⟩ rfl

/-- C2: when the composite S = B.sum(A) contains the origin, solveCollisions
translates A's center by exactly S.closestPoint(origin) and leaves A's
velocity and all of B unchanged. -/
theorem solveCollisions_penetration (a b : Shape) (dt : ℝ) (s : Shape)
    (hs : b.sum a = .ok s) (hc : s.contains Vector.zero = true) :
    a.solveCollisions b dt =
      .ok ({ a with center := Vector.add a.center (s.closestPoint Vector.zero) }, b) := by
  unfold Shape.solveCollisions
  rw [hs]
  simp [Except.map, hc]

/-- Witness for C2 at two concrete overlapping circles. -/
theorem solveCollisions_penetration_witness :
    Shape.solveCollisions ⟨⟨0, 0⟩, ⟨0, 0⟩, .circle 1⟩ ⟨⟨1, 0⟩, ⟨0, 0⟩, .circle 1⟩ 1 =
      .ok (⟨Vector.add ⟨0, 0⟩
              (Shape.closestPoint ⟨⟨1 - 0, 0 - 0⟩, ⟨0, 0⟩, .circle (1 + 1)⟩ Vector.zero),
            ⟨0, 0⟩, .circle 1⟩,
           ⟨⟨1, 0⟩, ⟨0, 0⟩, .circle 1⟩) :=
  solveCollisions_penetration ⟨⟨0, 0⟩, ⟨0, 0⟩, .circle 1⟩ ⟨⟨1, 0⟩, ⟨0, 0⟩, .circle 1⟩ 1
    ⟨⟨1 - 0, 0 - 0⟩, ⟨0, 0⟩, .circle (1 + 1)⟩ rfl
    (by simp only [Shape.contains, containsCircle, Vector.sub, Vector.dot, Vector.length,
          Vector.zero, decide_eq_true_eq]
        norm_num [Real.sqrt_one])

/-- Scaling law of the vector length. -/
theorem Vector.length_mul (v : Vector) (s : ℝ) :
    (Vector.mul v s).length = |s| * v.length := by
  unfold Vector.length Vector.mul Vector.dot
  dsimp only
  rw [show v.x * s * (v.x * s) + v.y * s * (v.y * s) = s ^ 2 * (v.x * v.x + v.y * v.y) by ring]
  rw [Real.sqrt_mul (sq_nonneg s), Real.sqrt_sq_eq_abs]

/-- Positivity of the length of a nonzero vector. -/
theorem Vector.length_pos (v : Vector) (h : v ≠ Vector.zero) : 0 < Vector.length v := by
  obtain ⟨x, y⟩ := v
  have hxy : x ≠ 0 ∨ y ≠ 0 := by
    by_contra hc
    push_neg at hc
    exact h (by simp [Vector.zero, hc.1, hc.2])
  unfold Vector.length Vector.dot
  apply Real.sqrt_pos.mpr
  rcases hxy with hx | hy
  · nlinarith [mul_self_nonneg y, mul_self_pos.mpr hx]
  · nlinarith [mul_self_nonneg x, mul_self_pos.mpr hy]

/-- C7 amended: the Circle closest point lies exactly on the circle for every
p other than the center; the AABB closest point always lies on the supporting
line of one of the four sides (from which it can miss the boundary for p
outside beyond a corner, as the counterexample shows). -/
theorem closestPoint_boundary (center vel : Vector) (radius hw hh : ℝ) (p : Vector)
    (hp : Vector.sub p center ≠ Vector.zero) (hr : 0 ≤ radius) :
    (Vector.sub ((Shape.mk center vel (.circle radius)).closestPoint p) center).length = radius ∧
    (((Shape.mk center vel (.aabb hw hh)).closestPoint p).x = center.x - hw ∨
     ((Shape.mk center vel (.aabb hw hh)).closestPoint p).x = center.x + hw ∨
     ((Shape.mk center vel (.aabb hw hh)).closestPoint p).y = center.y - hh ∨
     ((Shape.mk center vel (.aabb hw hh)).closestPoint p).y = center.y + hh) := by
  constructor
  · have hL := Vector.length_pos _ hp
    simp only [Shape.closestPoint, closestPointCircle]
    have hsub : ∀ w : Vector, Vector.sub (Vector.add center w) center = w := by
      intro w
      cases w
      simp [Vector.sub, Vector.add]
    rw [hsub, Vector.length_mul,
      abs_of_nonneg (div_nonneg hr hL.le), div_mul_cancel₀ radius hL.ne']
  · simp only [Shape.closestPoint, closestPointAABB]
    split_ifs <;> simp

/-- Witness for C7 at a concrete circle/box pair and outside point. -/
theorem closestPoint_boundary_witness :
    (Vector.sub ((Shape.mk ⟨0, 0⟩ ⟨0, 0⟩ (.circle 1)).closestPoint ⟨2, 0⟩) ⟨0, 0⟩).length = 1 ∧
    (((Shape.mk ⟨0, 0⟩ ⟨0, 0⟩ (.aabb 1 1)).closestPoint ⟨2, 0⟩).x = (0 : ℝ) - 1 ∨
     ((Shape.mk ⟨0, 0⟩ ⟨0, 0⟩ (.aabb 1 1)).closestPoint ⟨2, 0⟩).x = (0 : ℝ) + 1 ∨
     ((Shape.mk ⟨0, 0⟩ ⟨0, 0⟩ (.aabb 1 1)).closestPoint ⟨2, 0⟩).y = (0 : ℝ) - 1 ∨
     ((Shape.mk ⟨0, 0⟩ ⟨0, 0⟩ (.aabb 1 1)).closestPoint ⟨2, 0⟩).y = (0 : ℝ) + 1) :=
  closestPoint_boundary ⟨0, 0⟩ ⟨0, 0⟩ 1 1 1 ⟨2, 0⟩
    (by simp only [Vector.sub, Vector.zero, ne_eq, Vector.mk.injEq, not_and]
        norm_num)
    (by norm_num)

/-- Counterexample for C7: for the box with half extents 1 centered at the
origin and the strictly outside point (1000, 1000), closestPoint lands on the
supporting line x = 1 at (1, 1000), outside the shape; for the rounded
rectangle with half extents 2 and radius 1 and the strictly outside point
(5, 1), closestPoint returns (5, 1) itself.  In both cases contains rejects
the returned point, far beyond any numerical tolerance. -/
theorem closestPoint_off_boundary :
    (Shape.contains ⟨⟨0, 0⟩, ⟨0, 0⟩, .aabb 1 1⟩ ⟨1000, 1000⟩ = false ∧
     Shape.closestPoint ⟨⟨0, 0⟩, ⟨0, 0⟩, .aabb 1 1⟩ ⟨1000, 1000⟩ = ⟨0 + 1, 1000⟩ ∧
     Shape.contains ⟨⟨0, 0⟩, ⟨0, 0⟩, .aabb 1 1⟩
       (Shape.closestPoint ⟨⟨0, 0⟩, ⟨0, 0⟩, .aabb 1 1⟩ ⟨1000, 1000⟩) = false) ∧
    (Shape.contains ⟨⟨0, 0⟩, ⟨0, 0⟩, .roundrect 2 2 1⟩ ⟨5, 1⟩ = false ∧
     Shape.closestPoint ⟨⟨0, 0⟩, ⟨0, 0⟩, .roundrect 2 2 1⟩ ⟨5, 1⟩ = ⟨5, 1⟩ ∧
     Shape.contains ⟨⟨0, 0⟩, ⟨0, 0⟩, .roundrect 2 2 1⟩
       (Shape.closestPoint ⟨⟨0, 0⟩, ⟨0, 0⟩, .roundrect 2 2 1⟩ ⟨5, 1⟩) = false) := by
  have habox : Shape.contains ⟨⟨0, 0⟩, ⟨0, 0⟩, .aabb 1 1⟩ ⟨1000, 1000⟩ = false := by
    simp only [Shape.contains, containsAABB, decide_eq_false_iff_not, not_and]
    norm_num
  have hcp : Shape.closestPoint ⟨⟨0, 0⟩, ⟨0, 0⟩, .aabb 1 1⟩ ⟨1000, 1000⟩ = ⟨0 + 1, 1000⟩ := by
    simp only [Shape.closestPoint, closestPointAABB]
    norm_num [abs_of_nonneg, abs_of_nonpos]
  have hcp2 : Shape.contains ⟨⟨0, 0⟩, ⟨0, 0⟩, .aabb 1 1⟩ (⟨0 + 1, 1000⟩ : Vector) = false := by
    simp only [Shape.contains, containsAABB, decide_eq_false_iff_not, not_and]
    norm_num
  have hrr : Shape.contains ⟨⟨0, 0⟩, ⟨0, 0⟩, .roundrect 2 2 1⟩ ⟨5, 1⟩ = false := by
    simp only [Shape.contains, containsRoundRect, Vector.sub, Vector.abs, Vector.add,
      Vector.max, Vector.zero, Vector.length, Vector.dot, decide_eq_false_iff_not]
    norm_num
  have hcp3 : Shape.closestPoint ⟨⟨0, 0⟩, ⟨0, 0⟩, .roundrect 2 2 1⟩ ⟨5, 1⟩ = ⟨5, 1⟩ := by
    simp only [Shape.closestPoint, closestPointRoundRect]
    norm_num [Vector.sub, Vector.abs, abs_of_nonneg]
  refine ⟨⟨habox, hcp, ?_⟩, hrr, hcp3, ?_⟩
  · rw [hcp]
    exact hcp2
  · rw [hcp3]
    exact hrr

/-- C6 amended: a RoundedRect contains its own center whenever 0 < radius and
radius is at most both half extents (the documented non-degeneracy invariant
radius <= min(halfWidth, halfHeight)). -/
theorem roundrect_contains_center (center vel : Vector) (hw hh radius : ℝ)
    (h0 : 0 < radius) (h1 : radius ≤ hw) (h2 : radius ≤ hh) :
    (Shape.mk center vel (.roundrect hw hh radius)).contains center = true := by
  simp only [Shape.contains, containsRoundRect, Vector.sub, Vector.abs, Vector.add,
    Vector.max, Vector.zero, Vector.length, Vector.dot, decide_eq_true_eq]
  rw [show center.x - center.x = 0 by ring, show center.y - center.y = 0 by ring, abs_zero]
  have hqx : (0 : ℝ) + (-hw + radius) ≤ 0 := by linarith
  have hqy : (0 : ℝ) + (-hh + radius) ≤ 0 := by linarith
  rw [max_eq_right hqx, max_eq_right hqy, show (0 : ℝ) * 0 + 0 * 0 = 0 by ring,
    Real.sqrt_zero]
  have hmin : Min.min (Max.max ((0 : ℝ) + (-hw + radius)) (0 + (-hh + radius))) 0 ≤ 0 :=
    min_le_right _ _
  linarith

/-- Witness for C6 at a concrete rounded rectangle. -/
theorem roundrect_contains_center_witness :
    (Shape.mk ⟨7, 8⟩ ⟨0, 0⟩ (.roundrect 2 3 1)).contains ⟨7, 8⟩ = true :=
  roundrect_contains_center ⟨7, 8⟩ ⟨0, 0⟩ 2 3 1 (by norm_num) (by norm_num) (by norm_num)

/-- Counterexample for C6: with radius 10 larger than the half extents 1, the
rounded rectangle does not contain its own center (the corner excess
sqrt(162) exceeds the radius), although radius, halfWidth and halfHeight are
all positive. -/
theorem roundrect_contains_center_false :
    (Shape.mk ⟨0, 0⟩ ⟨0, 0⟩ (.roundrect 1 1 10)).contains ⟨0, 0⟩ = false := by
  simp only [Shape.contains, containsRoundRect, Vector.sub, Vector.abs, Vector.add,
    Vector.max, Vector.zero, Vector.length, Vector.dot, decide_eq_false_iff_not]
  norm_num
  rw [Real.lt_sqrt (by norm_num)]
  norm_num

/-- C1 record: at the concrete configuration of two approaching circles the
swept branch hits at h = 1/4 and solveCollisions (the first, complete variant
of src/script.js) advances both centers by velocity * (dt * h) but leaves A's
velocity at (4, 0); the tangential reflection the claim describes would have
replaced it by dot(v, tangent) * tangent = (0, 0), a different vector.  (In
the second variant the reflection statement is present but ray-casts shape A
itself instead of S, and its right-hand side multiplies a scalar by a vector
object, which is NaN in JavaScript.) -/
theorem solveCollisions_keeps_velocity_at_hit :
    Shape.solveCollisions ⟨⟨0, 0⟩, ⟨4, 0⟩, .circle 1⟩ ⟨⟨3, 0⟩, ⟨0, 0⟩, .circle 1⟩ 1 =
      .ok (⟨⟨1, 0⟩, ⟨4, 0⟩, .circle 1⟩, ⟨⟨3, 0⟩, ⟨0, 0⟩, .circle 1⟩) ∧
    Vector.mul (Vector.tangent (Vector.normalized (Vector.sub ⟨4, 0⟩ ⟨0, 0⟩)))
        (Vector.dot ⟨4, 0⟩ (Vector.tangent (Vector.normalized (Vector.sub ⟨4, 0⟩ ⟨0, 0⟩)))) =
      ⟨0, 0⟩ ∧
    (⟨4, 0⟩ : Vector) ≠ (⟨0, 0⟩ : Vector) := by
  have h256 : Real.sqrt 256 = 16 := sqrt_eq_of_sq 256 16 (by norm_num) (by norm_num)
  have h9 : Real.sqrt 9 = 3 := sqrt_eq_of_sq 9 3 (by norm_num) (by norm_num)
  have h16 : Real.sqrt 16 = 4 := sqrt_eq_of_sq 16 4 (by norm_num) (by norm_num)
  refine ⟨?_, ?_, ?_⟩
  · have hsum : Shape.sum ⟨⟨3, 0⟩, ⟨0, 0⟩, .circle 1⟩ ⟨⟨0, 0⟩, ⟨4, 0⟩, .circle 1⟩ =
        .ok ⟨⟨3 - 0, 0 - 0⟩, ⟨0, 0⟩, .circle (1 + 1)⟩ := rfl
    unfold Shape.solveCollisions
    rw [hsum]
    have hcont : Shape.contains ⟨⟨3 - 0, 0 - 0⟩, ⟨0, 0⟩, .circle (1 + 1)⟩ Vector.zero = false := by
      simp only [Shape.contains, containsCircle, Vector.sub, Vector.zero, Vector.length,
        Vector.dot, decide_eq_false_iff_not]
      norm_num [h9]
    have hray : Shape.rayCast ⟨⟨3 - 0, 0 - 0⟩, ⟨0, 0⟩, .circle (1 + 1)⟩ Vector.zero
        (Vector.sub ⟨4, 0⟩ ⟨0, 0⟩) = ((1 / 4 : ℝ) : WithTop ℝ) := by
      simp only [Shape.rayCast, rayCastCircle, Vector.sub, Vector.zero, Vector.dot, jsEpsilon]
      norm_num [h256]
    simp only [Except.map, hcont, Bool.false_eq_true, if_false, hray]
    rw [if_pos (WithTop.coe_lt_top (1 / 4 : ℝ))]
    simp only [WithTop.untop'_coe, Except.ok.injEq, Prod.mk.injEq, Shape.mk.injEq,
      Vector.mk.injEq, Vector.add, Vector.mul]
    norm_num
  · simp only [Vector.sub, Vector.normalized, Vector.length, Vector.dot, Vector.mul,
      Vector.tangent, Vector.mk.injEq]
    norm_num [h16]
  · simp only [ne_eq, Vector.mk.injEq, not_and]
    norm_num

end Theorems

end Minkowski
